import Mathlib

/-!
Verification development for the minio multipart-upload and namespace-locking
core.  Go maps are embedded as association lists (first occurrence wins, as a
Go map holds each key once), machine integers as Int or Nat, fallible code as
Except, and a Go panic as Option.none.
-/

set_option maxRecDepth 4000

/-! ### Association-list helpers (embedding of Go maps) -/

def alookup {α β : Type} [DecidableEq α] : List (α × β) → α → Option β
  | [], _ => none
  | (k, v) :: rest, a => if k = a then some v else alookup rest a

def aupdate {α β : Type} [DecidableEq α] : List (α × β) → α → β → List (α × β)
  | [], _, _ => []
  | (k, v) :: rest, a, b => if k = a then (k, b) :: rest else (k, v) :: aupdate rest a b

def aerase {α β : Type} [DecidableEq α] : List (α × β) → α → List (α × β)
  | [], _ => []
  | (k, v) :: rest, a => if k = a then rest else (k, v) :: aerase rest a

/-- Sum of a projection of the values of an association list. -/
def sumBy {α β : Type} (f : β → Int) (l : List (α × β)) : Int :=
  (l.map (fun pe => f pe.2)).sum

/-- Insert-or-replace, the embedding of a Go map assignment m[k] = v. -/
def ainsert {α β : Type} [DecidableEq α] (l : List (α × β)) (a : α) (b : β) : List (α × β) :=
  match alookup l a with
  | some _ => aupdate l a b
  | none => l ++ [(a, b)]

/-! ### Lock instrumentation (src/lock-instrument.go) -/

/-- Key identifying a lockable resource: volume = bucket, path = object. -/
structure nsParam where
  volume : String
  path : String
deriving DecidableEq, Repr

/-- Source: struct debugLockInfo.  The time.Time field since is embedded as a
Nat tick supplied by the caller in place of time.Now().UTC(). -/
structure debugLockInfo where
  lockType : String
  lockOrigin : String
  status : String
  since : Nat
deriving DecidableEq, Repr

/-- Source: struct debugLockInfoPerVolumePath.  lockInfo is the per-operation
map keyed by operation ID. -/
structure debugLockInfoPerVolumePath where
  ref : Int
  running : Int
  blocked : Int
  lockInfo : List (String × debugLockInfo)
deriving DecidableEq, Repr

/-- Source: newDebugLockInfoPerVolumePath. -/
def newDebugLockInfoPerVolumePath : debugLockInfoPerVolumePath :=
  { ref := 0, running := 0, blocked := 0, lockInfo := [] }

/-- The debug-instrumentation state carried by struct nsLockMap: the three
global counters and the debugLockMap.  The guard mutex and the production
lockMap are not part of this fragment. -/
structure nsLockMap where
  globalLockCounter : Int
  blockedCounter : Int
  runningLockCounter : Int
  debugLockMap : List (nsParam × debugLockInfoPerVolumePath)
deriving DecidableEq, Repr

def debugRLockStr : String := "RLock"
def debugWLockStr : String := "WLock"

/-- Source: nsLockMap.statusNoneToBlocked (the reserve transition).  The Go
body first assigns into debugLockMap[param].lockInfo: when param is absent
that map index yields a nil pointer and the assignment panics, embedded here
as none, before any counter is touched. -/
def statusNoneToBlocked (n : nsLockMap) (param : nsParam)
    (lockOrigin operationID : String) (readLock : Bool) (now : Nat) : Option nsLockMap :=
  match alookup n.debugLockMap param with
  | none => none
  | some e =>
    let newLockInfo : debugLockInfo :=
      { lockType := if readLock then debugRLockStr else debugWLockStr
        lockOrigin := lockOrigin
        status := "Blocked"
        since := now }
    let e' : debugLockInfoPerVolumePath :=
      { e with
        lockInfo := ainsert e.lockInfo operationID newLockInfo
        ref := e.ref + 1
        blocked := e.blocked + 1 }
    some { n with
           debugLockMap := aupdate n.debugLockMap param e'
           globalLockCounter := n.globalLockCounter + 1
           blockedCounter := n.blockedCounter + 1 }

/-- Source: nsLockMap.statusBlockedToRunning (the acquired transition).  Same
nil-pointer panic as statusNoneToBlocked when param is absent. -/
def statusBlockedToRunning (n : nsLockMap) (param : nsParam)
    (lockOrigin operationID : String) (readLock : Bool) (now : Nat) : Option nsLockMap :=
  match alookup n.debugLockMap param with
  | none => none
  | some e =>
    let newLockInfo : debugLockInfo :=
      { lockType := if readLock then debugRLockStr else debugWLockStr
        lockOrigin := lockOrigin
        status := "Running"
        since := now }
    let e' : debugLockInfoPerVolumePath :=
      { e with
        lockInfo := ainsert e.lockInfo operationID newLockInfo
        blocked := e.blocked - 1
        running := e.running + 1 }
    some { n with
           debugLockMap := aupdate n.debugLockMap param e'
           blockedCounter := n.blockedCounter - 1
           runningLockCounter := n.runningLockCounter + 1 }

/-- Source: nsLockMap.deleteLockInfoEntryForOps (the released transition).
Returns the new state together with a flag recording whether the logged error
message (Operation ID does not exist) was emitted via errorIf; the Go function
returns nothing, so no error ever reaches the caller. -/
def deleteLockInfoEntryForOps (n : nsLockMap) (param : nsParam) (operationID : String) :
    nsLockMap × Bool :=
  match alookup n.debugLockMap param with
  | none => (n, false)
  | some infoMap =>
    match alookup infoMap.lockInfo operationID with
    | some _ =>
      let e' : debugLockInfoPerVolumePath :=
        { infoMap with
          running := infoMap.running - 1
          ref := infoMap.ref - 1
          lockInfo := aerase infoMap.lockInfo operationID }
      ({ n with
         runningLockCounter := n.runningLockCounter - 1
         globalLockCounter := n.globalLockCounter - 1
         debugLockMap := aupdate n.debugLockMap param e' }, false)
    | none => (n, true)

/-- Ref count recorded for a (volume,path) pair, 0 when the pair is absent. -/
def paramRef (n : nsLockMap) (param : nsParam) : Int :=
  match alookup n.debugLockMap param with
  | some e => e.ref
  | none => 0

/-- Running count recorded for a (volume,path) pair, 0 when absent. -/
def paramRunning (n : nsLockMap) (param : nsParam) : Int :=
  match alookup n.debugLockMap param with
  | some e => e.running
  | none => 0

/-- Blocked count recorded for a (volume,path) pair, 0 when absent. -/
def paramBlocked (n : nsLockMap) (param : nsParam) : Int :=
  match alookup n.debugLockMap param with
  | some e => e.blocked
  | none => 0

/-- The spec invariants for the instrumentation counters: per (volume,path)
ref = running + blocked, and the three global counters aggregate the
per-entry counters. -/
def lockCountersInv (n : nsLockMap) : Prop :=
  (∀ pe ∈ n.debugLockMap, pe.2.ref = pe.2.running + pe.2.blocked) ∧
  sumBy (fun e => e.ref) n.debugLockMap = n.globalLockCounter ∧
  sumBy (fun e => e.running) n.debugLockMap = n.runningLockCounter ∧
  sumBy (fun e => e.blocked) n.debugLockMap = n.blockedCounter

def lockDemoParam : nsParam := { volume := "a", path := "b" }

def lockDemoInfo : debugLockInfo :=
  { lockType := "WLock", lockOrigin := "orig", status := "Running", since := 0 }

def lockDemoEntry : debugLockInfoPerVolumePath :=
  { ref := 1, running := 1, blocked := 0, lockInfo := [("op1", lockDemoInfo)] }

def lockDemoMap : nsLockMap :=
  { globalLockCounter := 1, blockedCounter := 0, runningLockCounter := 1,
    debugLockMap := [(lockDemoParam, lockDemoEntry)] }

def lockDemoReserved : nsLockMap :=
  (statusNoneToBlocked lockDemoMap lockDemoParam "orig" "op2" true 5).getD lockDemoMap

def lockEmptyMap : nsLockMap :=
  { globalLockCounter := 0, blockedCounter := 0, runningLockCounter := 0, debugLockMap := [] }

/-! ### Namespace lock map (production path) -/

/-- Modelled from the spec: the NSLockEntry of namespace-lock.go, whose
implementation is not under src (only its test is).  The rwLock member holds
no state that the reference-counting contract depends on, so the entry is its
ref count (spec section 3: NSLockEntry is rwLock plus ref int64). -/
structure nsLockEntry where
  ref : Int
deriving DecidableEq, Repr

/-- Modelled from the spec: the acquire half of the namespace-lock algorithm
(spec section 4.2 step 1, shared by Lock and RLock): under the guard mutex,
look up or create the entry, then increment ref. -/
def nsLockAcquire (m : List (nsParam × nsLockEntry)) (param : nsParam) :
    List (nsParam × nsLockEntry) :=
  match alookup m param with
  | none => m ++ [(param, { ref := 1 })]
  | some e => aupdate m param { ref := e.ref + 1 }

/-- Modelled from the spec: the release half (spec section 4.2 step 3, shared
by Unlock and RUnlock): decrement ref and delete the entry when it reaches
0; release of an absent entry is a silent no-op in the production path. -/
def nsLockRelease (m : List (nsParam × nsLockEntry)) (param : nsParam) :
    List (nsParam × nsLockEntry) :=
  match alookup m param with
  | none => m
  | some e =>
    if e.ref - 1 = 0 then aerase m param else aupdate m param { ref := e.ref - 1 }

/-- Run a sequence of operations on one key: true = acquire, false =
release. -/
def nsLockApply (m : List (nsParam × nsLockEntry)) (param : nsParam) :
    List Bool → List (nsParam × nsLockEntry)
  | [] => m
  | op :: rest =>
    nsLockApply (if op then nsLockAcquire m param else nsLockRelease m param) param rest

/-- Balance check from nesting depth k: every release matches an earlier
acquire and the sequence ends at depth 0. -/
def balancedFrom (k : Int) : List Bool → Bool
  | [] => decide (k = 0)
  | op :: rest =>
    if op then balancedFrom (k + 1) rest else decide (0 < k) && balancedFrom (k - 1) rest

/-- The ref counts recorded for a key, in map order (a Go map holds a key at
most once, so this is empty or a singleton in every reachable state). -/
def keyRefList : List (nsParam × nsLockEntry) → nsParam → List Int
  | [], _ => []
  | (q, e) :: rest, param =>
    if q = param then e.ref :: keyRefList rest param else keyRefList rest param

/-! ### MD5 (RFC 1321), used by PutObjectPart for part etags -/

def md5K : List Nat := [
  0xd76aa478, 0xe8c7b756, 0x242070db, 0xc1bdceee,
  0xf57c0faf, 0x4787c62a, 0xa8304613, 0xfd469501,
  0x698098d8, 0x8b44f7af, 0xffff5bb1, 0x895cd7be,
  0x6b901122, 0xfd987193, 0xa679438e, 0x49b40821,
  0xf61e2562, 0xc040b340, 0x265e5a51, 0xe9b6c7aa,
  0xd62f105d, 0x02441453, 0xd8a1e681, 0xe7d3fbc8,
  0x21e1cde6, 0xc33707d6, 0xf4d50d87, 0x455a14ed,
  0xa9e3e905, 0xfcefa3f8, 0x676f02d9, 0x8d2a4c8a,
  0xfffa3942, 0x8771f681, 0x6d9d6122, 0xfde5380c,
  0xa4beea44, 0x4bdecfa9, 0xf6bb4b60, 0xbebfbc70,
  0x289b7ec6, 0xeaa127fa, 0xd4ef3085, 0x04881d05,
  0xd9d4d039, 0xe6db99e5, 0x1fa27cf8, 0xc4ac5665,
  0xf4292244, 0x432aff97, 0xab9423a7, 0xfc93a039,
  0x655b59c3, 0x8f0ccc92, 0xffeff47d, 0x85845dd1,
  0x6fa87e4f, 0xfe2ce6e0, 0xa3014314, 0x4e0811a1,
  0xf7537e82, 0xbd3af235, 0x2ad7d2bb, 0xeb86d391]

def md5S : List Nat := [
  7, 12, 17, 22, 7, 12, 17, 22, 7, 12, 17, 22, 7, 12, 17, 22,
  5, 9, 14, 20, 5, 9, 14, 20, 5, 9, 14, 20, 5, 9, 14, 20,
  4, 11, 16, 23, 4, 11, 16, 23, 4, 11, 16, 23, 4, 11, 16, 23,
  6, 10, 15, 21, 6, 10, 15, 21, 6, 10, 15, 21, 6, 10, 15, 21]

def rotl32 (x s : Nat) : Nat :=
  ((x <<< s) % 4294967296) ||| (x >>> (32 - s))

def md5F (i b c d : Nat) : Nat :=
  if i < 16 then (b &&& c) ||| ((b ^^^ 0xffffffff) &&& d)
  else if i < 32 then (d &&& b) ||| ((d ^^^ 0xffffffff) &&& c)
  else if i < 48 then b ^^^ c ^^^ d
  else c ^^^ (b ||| (d ^^^ 0xffffffff))

def md5G (i : Nat) : Nat :=
  if i < 16 then i
  else if i < 32 then (5 * i + 1) % 16
  else if i < 48 then (3 * i + 5) % 16
  else (7 * i) % 16

def md5Step (msg : List Nat) (st : Nat × Nat × Nat × Nat) (i : Nat) : Nat × Nat × Nat × Nat :=
  match st with
  | (a, b, c, d) =>
    let x := (a + md5F i b c d + md5K.getD i 0 + msg.getD (md5G i) 0) % 4294967296
    (d, (b + rotl32 x (md5S.getD i 0)) % 4294967296, b, c)

def md5Block (st0 : Nat × Nat × Nat × Nat) (msg : List Nat) : Nat × Nat × Nat × Nat :=
  match st0, (List.range 64).foldl (md5Step msg) st0 with
  | (a0, b0, c0, d0), (a, b, c, d) =>
    ((a0 + a) % 4294967296, (b0 + b) % 4294967296, (c0 + c) % 4294967296,
     (d0 + d) % 4294967296)

def bytesToWordsLE : List Nat → List Nat
  | b0 :: b1 :: b2 :: b3 :: rest =>
    (b0 + 256 * b1 + 65536 * b2 + 16777216 * b3) :: bytesToWordsLE rest
  | _ => []

def lenBytesLE (n : Nat) : List Nat :=
  [n % 256, n / 256 % 256, n / 65536 % 256, n / 16777216 % 256,
   n / 4294967296 % 256, n / 1099511627776 % 256,
   n / 281474976710656 % 256, n / 72057594037927936 % 256]

def md5Pad (msg : List Nat) : List Nat :=
  let z : Nat := (120 - (msg.length + 1) % 64) % 64
  msg ++ [128] ++ List.replicate z 0 ++ lenBytesLE (msg.length * 8)

def chunksAux : Nat → List Nat → List (List Nat)
  | 0, _ => []
  | _, [] => []
  | fuel + 1, x :: rest => ((x :: rest).take 64) :: chunksAux fuel ((x :: rest).drop 64)

/-- Split into 64-byte blocks; the fuel bound makes the recursion structural
and is always sufficient since each step consumes at least one byte. -/
def chunks64 (l : List Nat) : List (List Nat) := chunksAux l.length l

def md5Digest (msg : List Nat) : Nat × Nat × Nat × Nat :=
  (chunks64 (md5Pad msg)).foldl (fun st blk => md5Block st (bytesToWordsLE blk))
    (0x67452301, 0xefcdab89, 0x98badcfe, 0x10325476)

/-- The lowercase hex digit for a value below 16. -/
def hexChar : Nat → Char
  | 0 => '0'
  | 1 => '1'
  | 2 => '2'
  | 3 => '3'
  | 4 => '4'
  | 5 => '5'
  | 6 => '6'
  | 7 => '7'
  | 8 => '8'
  | 9 => '9'
  | 10 => 'a'
  | 11 => 'b'
  | 12 => 'c'
  | 13 => 'd'
  | 14 => 'e'
  | _ => 'f'

def byteHex (b : Nat) : String :=
  String.mk [hexChar (b / 16 % 16), hexChar (b % 16)]

def wordHexLE (w : Nat) : String :=
  byteHex (w % 256) ++ byteHex (w / 256 % 256) ++ byteHex (w / 65536 % 256) ++
    byteHex (w / 16777216 % 256)

/-- The 32-character lowercase hex rendering of the MD5 digest of a byte
sequence, as Go fmt of the md5 sum produces it. -/
def md5Hex (msg : List Nat) : String :=
  match md5Digest msg with
  | (a, b, c, d) => wordHexLE a ++ wordHexLE b ++ wordHexLE c ++ wordHexLE d

def strBytes (s : String) : List Nat := s.data.map Char.toNat

/-! ### Name validation and decimal rendering -/

def isDigitChar (c : Char) : Bool := 48 ≤ c.toNat && c.toNat ≤ 57

def isLowerAlnum (c : Char) : Bool :=
  (97 ≤ c.toNat && c.toNat ≤ 122) || isDigitChar c

def isBucketChar (c : Char) : Bool :=
  isLowerAlnum c || c == '-' || c == '.'

def hasDotDot : List Char → Bool
  | c1 :: c2 :: rest => (c1 == '.' && c2 == '.') || hasDotDot (c2 :: rest)
  | _ => false

def splitOnDot : List Char → List (List Char)
  | [] => [[]]
  | c :: rest =>
    let r := splitOnDot rest
    if c == '.' then [] :: r
    else
      match r with
      | [] => [[c]]
      | g :: gs => (c :: g) :: gs

def isIPv4Like (cs : List Char) : Bool :=
  let parts := splitOnDot cs
  parts.length == 4 && parts.all (fun p => !p.isEmpty && p.all isDigitChar)

/-- Modelled from the spec: IsValidBucketName (not under src): 3 to 63
characters, lowercase letters, digits, dash and dot, not beginning or ending
with dash or dot, no double dot, not of IP-address form. -/
def IsValidBucketName (bucket : String) : Bool :=
  let cs := bucket.data
  3 ≤ cs.length && cs.length ≤ 63 &&
  (match cs.head? with
   | some c => !(c == '-' || c == '.')
   | none => false) &&
  (match cs.getLast? with
   | some c => !(c == '-' || c == '.')
   | none => false) &&
  cs.all isBucketChar && !hasDotDot cs && !isIPv4Like cs

def natDigitsAux : Nat → Nat → List Char
  | 0, _ => []
  | fuel + 1, n =>
    if n < 10 then [hexChar n] else natDigitsAux fuel (n / 10) ++ [hexChar (n % 10)]

/-- Decimal rendering of a Nat (the fuel makes the recursion structural and
n + 1 always suffices). -/
def natDecimal (n : Nat) : String := String.mk (natDigitsAux (n + 1) n)

/-! ### PutObjectPart (multipart engine) -/

/-- Modelled from the spec: the multipart-engine state visible to
PutObjectPart (the fs/xl implementation is not under src; only its tests
are): existing buckets, active (bucket, object, uploadID) triples, and the
stored part etags keyed by (bucket, object, uploadID, partNumber). -/
structure multipartState where
  buckets : List String
  activeUploads : List (String × String × String)
  parts : List ((String × String × String × Nat) × String)
deriving DecidableEq, Repr

/-- Modelled from the spec: PutObjectPart (spec section 4.3), the reader
embedded as the byte sequence it delivers.  Validation order and the literal
messages follow the spec and are pinned by testObjectAPIPutObjectPart in
src/unnamed/part_000.  Returns the state (unchanged on every error, so a
rejected part is discarded) together with the etag or the error text. -/
def putObjectPart (st : multipartState) (bucket object uploadID : String)
    (partNumber : Nat) (size : Nat) (readerData : List Nat) (expectedMD5 : String) :
    multipartState × Except String String :=
  if !IsValidBucketName bucket then
    (st, Except.error ("Bucket name invalid: " ++ bucket))
  else if object == "" then
    (st, Except.error ("Object name invalid: " ++ bucket ++ "#" ++ object))
  else if !(st.buckets.contains bucket) then
    (st, Except.error ("Bucket not found: " ++ bucket))
  else if !(st.activeUploads.contains (bucket, object, uploadID)) then
    (st, Except.error ("Invalid upload id " ++ uploadID))
  else if readerData.length < size then
    (st, Except.error "EOF")
  else if size < readerData.length then
    (st, Except.error ("Contains more data than specified size of " ++
      natDecimal size ++ " bytes."))
  else
    let computed := md5Hex readerData
    if expectedMD5 != "" && expectedMD5 != computed then
      (st, Except.error ("Bad digest: Expected " ++ expectedMD5 ++
        " is not valid with what we calculated " ++ computed))
    else
      ({ st with
         parts := ainsert st.parts (bucket, object, uploadID, partNumber) computed },
       Except.ok computed)

def mpDemo : multipartState :=
  { buckets := ["minio-bucket", "unused-bucket"],
    activeUploads := [("minio-bucket", "minio-object", "uid-1")],
    parts := [] }

/-! ### ListMultipartUploads (multipart listing engine) -/

/-- Source: struct uploadMetadata, the fields TestListMultipartUploads
asserts (Object and UploadID). -/
structure uploadMetadata where
  Object : String
  UploadID : String
deriving DecidableEq, Repr, Inhabited

/-- Source: struct ListMultipartsInfo, the fields TestListMultipartUploads
asserts. -/
structure ListMultipartsInfo where
  KeyMarker : String
  UploadIDMarker : String
  NextKeyMarker : String
  NextUploadIDMarker : String
  MaxUploads : Int
  IsTruncated : Bool
  Uploads : List uploadMetadata
  Prefix : String
  Delimiter : String
  CommonPrefixes : List String
deriving DecidableEq, Repr, Inhabited

def charListLt : List Char → List Char → Bool
  | [], [] => false
  | [], _ :: _ => true
  | _ :: _, [] => false
  | c1 :: r1, c2 :: r2 =>
    if c1.toNat < c2.toNat then true
    else if c2.toNat < c1.toNat then false
    else charListLt r1 r2

/-- Byte-lexicographic string order, as Go compares strings. -/
def strLt (a b : String) : Bool := charListLt a.data b.data

def strLe (a b : String) : Bool := strLt a b || a == b

def charListHasPfx : List Char → List Char → Bool
  | [], _ => true
  | _ :: _, [] => false
  | p :: ps, c :: cs => p == c && charListHasPfx ps cs

/-- Whether s starts with the piece p, as Go strings.HasPrefix(s, p). -/
def strHasPfx (p s : String) : Bool := charListHasPfx p.data s.data

def strEndsWithSlash (s : String) : Bool :=
  match s.data.getLast? with
  | some c => c == '/'
  | none => false

def splitOnChar (sep : Char) : List Char → List (List Char)
  | [] => [[]]
  | c :: rest =>
    let r := splitOnChar sep rest
    if c == sep then [] :: r
    else
      match r with
      | [] => [[c]]
      | g :: gs => (c :: g) :: gs

def isHexChar (c : Char) : Bool := isDigitChar c || (97 ≤ c.toNat && c.toNat ≤ 102)

/-- Modelled from the spec: the uploadID format check used on uploadIDMarker
(canonical UUID: 8-4-4-4-12 hex digits separated by dashes; the parser
itself is not under src). -/
def isUUIDFormat (s : String) : Bool :=
  match splitOnChar '-' s.data with
  | [g1, g2, g3, g4, g5] =>
    g1.length == 8 && g2.length == 4 && g3.length == 4 && g4.length == 4 &&
    g5.length == 12 && (g1 ++ g2 ++ g3 ++ g4 ++ g5).all isHexChar
  | _ => false

/-- Modelled from the spec: enumeration step 3, marker skipping: skip object
below keyMarker; at keyMarker skip the entry when uploadIDMarker is empty,
and skip uploadIDs up to uploadIDMarker when it is set. -/
def skipEntry (keyMarker uploadIDMarker : String) (e : uploadMetadata) : Bool :=
  if strLt e.Object keyMarker then true
  else if e.Object == keyMarker then
    if uploadIDMarker == "" then true else strLe e.UploadID uploadIDMarker
  else false

/-- One emission of the listing loop: an upload entry or a common prefix. -/
inductive listEmission where
  | upload (u : uploadMetadata)
  | cpfx (s : String)
deriving DecidableEq, Repr

/-- Index of the first slash at or after position start. -/
def findSlashFrom : List Char → Nat → Option Nat
  | [], _ => none
  | c :: rest, 0 => if c == '/' then some 0 else (findSlashFrom rest 0).map (· + 1)
  | _ :: rest, n + 1 => (findSlashFrom rest n).map (· + 1)

/-- Modelled from the spec: enumeration step 4: with delimiter slash, an
entry whose object has a slash at or after the prefix length folds into its
common prefix, deduplicated against the prefixes already emitted; otherwise
the upload entry itself is emitted. -/
def emissionOf (pre delim : String) (e : uploadMetadata) (seen : List String) :
    Option listEmission :=
  if delim == "/" then
    match findSlashFrom e.Object.data pre.length with
    | some pos =>
      let cp := String.mk (e.Object.data.take (pos + 1))
      if seen.contains cp then none else some (listEmission.cpfx cp)
    | none => some (listEmission.upload e)
  else some (listEmission.upload e)

def seenAfter (em : listEmission) (seen : List String) : List String :=
  match em with
  | listEmission.cpfx s => s :: seen
  | listEmission.upload _ => seen

/-- The full (uncapped) emission sequence over a list of entries. -/
def emitAll (pre delim : String) : List uploadMetadata → List String → List listEmission
  | [], _ => []
  | e :: rest, seen =>
    match emissionOf pre delim e seen with
    | none => emitAll pre delim rest seen
    | some em => em :: emitAll pre delim rest (seenAfter em seen)

/-- Modelled from the spec: enumeration steps 5 and 6: accumulate up to
maxUploads emissions; a further emission attempted past the cap sets the
truncation flag (a cap of 0 with a first emission pending is exactly the
maxUploads = 0 with at least one match case). -/
def emitLoop (pre delim : String) : Nat → List uploadMetadata → List String →
    List listEmission × Bool
  | _, [], _ => ([], false)
  | maxU, e :: rest, seen =>
    match emissionOf pre delim e seen with
    | none => emitLoop pre delim maxU rest seen
    | some em =>
      match maxU with
      | 0 => ([], true)
      | m + 1 =>
        let r := emitLoop pre delim m rest (seenAfter em seen)
        (em :: r.1, r.2)

def emissionKey : listEmission → String
  | listEmission.upload u => u.Object
  | listEmission.cpfx s => s

def emissionUploadID : listEmission → String
  | listEmission.upload u => u.UploadID
  | listEmission.cpfx _ => ""

def emissionsUploads (l : List listEmission) : List uploadMetadata :=
  l.filterMap (fun em =>
    match em with
    | listEmission.upload u => some u
    | listEmission.cpfx _ => none)

def emissionsCpfx (l : List listEmission) : List String :=
  l.filterMap (fun em =>
    match em with
    | listEmission.cpfx s => some s
    | listEmission.upload _ => none)

/-- The snapshot entries that survive the prefix filter (enumeration step 1)
and the marker skipping (step 3). -/
def keptEntries (uploads : List uploadMetadata) (pre keyMarker uploadIDMarker : String) :
    List uploadMetadata :=
  (uploads.filter (fun e => strHasPfx pre e.Object)).filter
    (fun e => !skipEntry keyMarker uploadIDMarker e)

/-- The full emission sequence the listing would produce with no cap. -/
def matchingEmissions (uploads : List uploadMetadata)
    (pre keyMarker uploadIDMarker delim : String) : List listEmission :=
  emitAll pre delim (keptEntries uploads pre keyMarker uploadIDMarker) []

/-- The success result of the listing over the snapshot (spec section 4.3
enumeration steps 5 to 7 plus the echoed inputs). -/
def listMultipartsResult (uploads : List uploadMetadata)
    (pre keyMarker uploadIDMarker delim : String) (maxUploads : Int) : ListMultipartsInfo :=
  let kept := keptEntries uploads pre keyMarker uploadIDMarker
  let r := emitLoop pre delim maxUploads.toNat kept []
  { KeyMarker := keyMarker
    UploadIDMarker := uploadIDMarker
    Prefix := pre
    Delimiter := delim
    MaxUploads := Int.ofNat maxUploads.toNat
    IsTruncated := r.2
    NextKeyMarker :=
      if r.2 then
        match r.1.getLast? with
        | some em => emissionKey em
        | none => ""
      else ""
    NextUploadIDMarker :=
      if r.2 then
        match r.1.getLast? with
        | some em => emissionUploadID em
        | none => ""
      else ""
    Uploads := emissionsUploads r.1
    CommonPrefixes := emissionsCpfx r.1 }

/-- Modelled from the spec: ListMultipartUploads (spec section 4.3; the
fs/xl implementation is not under src, only TestListMultipartUploads is).
It runs over the gathered, time-then-name sorted snapshot of the buckets
active uploads (enumeration steps 1 and 2), with bucketExists standing for
the object-layer bucket lookup.  Two points follow the test rather than the
spec prose, which contradicts the test there: a set uploadIDMarker does not
require a non-empty keyMarker (test case 29 succeeds with an empty
keyMarker), and the returned MaxUploads field carries the normalized value,
0 for negative input (test case 20 expects MaxUploads 0 for input -1). -/
def listMultipartUploads (uploads : List uploadMetadata) (bucketExists : Bool)
    (bucket pre keyMarker uploadIDMarker delim : String) (maxUploads : Int) :
    Except String ListMultipartsInfo :=
  if !IsValidBucketName bucket then
    Except.error ("Bucket name invalid: " ++ bucket)
  else if !bucketExists then
    Except.error ("Bucket not found: " ++ bucket)
  else if !(delim == "" || delim == "/") then
    Except.error ("delimiter \x27" ++ delim ++ "\x27 is not supported")
  else if pre != "" && keyMarker != "" && !strHasPfx pre keyMarker then
    Except.error ("Invalid combination of marker \x27" ++ keyMarker ++
      "\x27 and prefix \x27" ++ pre ++ "\x27")
  else if uploadIDMarker != "" && strEndsWithSlash keyMarker then
    Except.error ("Invalid combination of uploadID marker \x27" ++ uploadIDMarker ++
      "\x27 and marker \x27" ++ keyMarker ++ "\x27")
  else if uploadIDMarker != "" && !isUUIDFormat uploadIDMarker then
    Except.error ("unknown UUID string " ++ uploadIDMarker)
  else
    Except.ok (listMultipartsResult uploads pre keyMarker uploadIDMarker delim maxUploads)

def listDemoU0 : String := "00000000-0000-0000-0000-0000000000a0"
def listDemoU1 : String := "00000000-0000-0000-0000-000000000001"
def listDemoU2 : String := "00000000-0000-0000-0000-000000000002"
def listDemoU3 : String := "00000000-0000-0000-0000-000000000003"

/-- Snapshot mirroring minio-bucket in TestListMultipartUploads: one upload
for minio-object. -/
def listDemoSingle : List uploadMetadata := [⟨"minio-object", listDemoU0⟩]

/-- Snapshot mirroring minio-2-bucket: three uploads for minio-object in
initiation order. -/
def listDemoTriple : List uploadMetadata :=
  [⟨"minio-object", listDemoU1⟩, ⟨"minio-object", listDemoU2⟩,
   ⟨"minio-object", listDemoU3⟩]

def listDemoTripleRes : ListMultipartsInfo :=
  (listMultipartUploads listDemoTriple true "minio-2-bucket" "" "" "" "" 2).toOption.getD
    default

def listDemoSkipRes : ListMultipartsInfo :=
  (listMultipartUploads listDemoTriple true "minio-2-bucket" "" "minio-object" listDemoU1
    "" 100).toOption.getD default

def listDemoNeg1Res : ListMultipartsInfo :=
  (listMultipartUploads listDemoSingle true "minio-bucket" "" "min" "" ""
    (-1)).toOption.getD default

theorem alookup_mem {α β : Type} [DecidableEq α] {l : List (α × β)} {a : α} {v : β}
    (h : alookup l a = some v) : (a, v) ∈ l := by
  induction l with
  | nil => simp [alookup] at h
  | cons pe rest ih =>
    obtain ⟨k, w⟩ := pe
    by_cases hk : k = a
    · subst hk
      simp [alookup] at h
      subst h
      exact List.mem_cons_self _ _
    · simp [alookup, hk] at h
      exact List.mem_cons_of_mem _ (ih h)

theorem alookup_aupdate_self {α β : Type} [DecidableEq α] {l : List (α × β)} {a : α} {v : β}
    (h : alookup l a = some v) (b : β) : alookup (aupdate l a b) a = some b := by
  induction l with
  | nil => simp [alookup] at h
  | cons pe rest ih =>
    obtain ⟨k, w⟩ := pe
    by_cases hk : k = a
    · subst hk
      simp [alookup, aupdate]
    · simp [alookup, aupdate, hk] at h ⊢
      exact ih h

theorem mem_aupdate {α β : Type} [DecidableEq α] {l : List (α × β)} {a : α} {b : β} {pe : α × β}
    (h : pe ∈ aupdate l a b) : pe = (a, b) ∨ pe ∈ l := by
  induction l with
  | nil => simp [aupdate] at h
  | cons qe rest ih =>
    obtain ⟨k, w⟩ := qe
    by_cases hk : k = a
    · subst hk
      simp [aupdate] at h
      rcases h with h | h
      · exact Or.inl h
      · exact Or.inr (List.mem_cons_of_mem _ h)
    · simp [aupdate, hk] at h
      rcases h with h | h
      · exact Or.inr (by simp [h])
      · rcases ih h with h' | h'
        · exact Or.inl h'
        · exact Or.inr (List.mem_cons_of_mem _ h')

theorem sumBy_aupdate {α β : Type} [DecidableEq α] (f : β → Int) {l : List (α × β)} {a : α} {v : β}
    (h : alookup l a = some v) (b : β) :
    sumBy f (aupdate l a b) = sumBy f l - f v + f b := by
  induction l with
  | nil => simp [alookup] at h
  | cons pe rest ih =>
    obtain ⟨k, w⟩ := pe
    by_cases hk : k = a
    · subst hk
      simp [alookup] at h
      subst h
      simp [aupdate, sumBy]
      ring
    · simp [alookup, hk] at h
      simp [aupdate, hk, sumBy] at ih ⊢
      have := ih h
      omega

theorem reserve_deltas {n n' : nsLockMap} {param : nsParam} {lo op : String}
    {rl : Bool} {now : Nat}
    (h : statusNoneToBlocked n param lo op rl now = some n') :
    n'.globalLockCounter = n.globalLockCounter + 1 ∧
    n'.blockedCounter = n.blockedCounter + 1 ∧
    n'.runningLockCounter = n.runningLockCounter ∧
    paramRef n' param = paramRef n param + 1 ∧
    paramBlocked n' param = paramBlocked n param + 1 ∧
    paramRunning n' param = paramRunning n param := by
  unfold statusNoneToBlocked at h
  cases he : alookup n.debugLockMap param with
  | none => rw [he] at h; simp at h
  | some e =>
    rw [he] at h
    simp only [Option.some.injEq] at h
    subst h
    refine ⟨rfl, rfl, rfl, ?_, ?_, ?_⟩ <;>
      simp [paramRef, paramBlocked, paramRunning, he, alookup_aupdate_self he]

theorem reserve_inv {n n' : nsLockMap} {param : nsParam} {lo op : String}
    {rl : Bool} {now : Nat}
    (h : statusNoneToBlocked n param lo op rl now = some n')
    (hinv : lockCountersInv n) : lockCountersInv n' := by
  obtain ⟨hent, href, hrun, hblk⟩ := hinv
  unfold statusNoneToBlocked at h
  cases he : alookup n.debugLockMap param with
  | none => rw [he] at h; simp at h
  | some e =>
    rw [he] at h
    simp only [Option.some.injEq] at h
    subst h
    refine ⟨?_, ?_, ?_, ?_⟩
    · intro pe hpe
      rcases mem_aupdate hpe with hpe' | hpe'
      · subst hpe'
        have hh := hent _ (alookup_mem he)
        simp at hh ⊢
        omega
      · exact hent _ hpe'
    · simp only [sumBy_aupdate _ he]
      omega
    · simp only [sumBy_aupdate _ he]
      omega
    · simp only [sumBy_aupdate _ he]
      omega

theorem acquired_deltas {n n' : nsLockMap} {param : nsParam} {lo op : String}
    {rl : Bool} {now : Nat}
    (h : statusBlockedToRunning n param lo op rl now = some n') :
    n'.blockedCounter = n.blockedCounter - 1 ∧
    n'.runningLockCounter = n.runningLockCounter + 1 ∧
    n'.globalLockCounter = n.globalLockCounter ∧
    paramBlocked n' param = paramBlocked n param - 1 ∧
    paramRunning n' param = paramRunning n param + 1 ∧
    paramRef n' param = paramRef n param := by
  unfold statusBlockedToRunning at h
  cases he : alookup n.debugLockMap param with
  | none => rw [he] at h; simp at h
  | some e =>
    rw [he] at h
    simp only [Option.some.injEq] at h
    subst h
    refine ⟨rfl, rfl, rfl, ?_, ?_, ?_⟩ <;>
      simp [paramRef, paramBlocked, paramRunning, he, alookup_aupdate_self he]

theorem acquired_inv {n n' : nsLockMap} {param : nsParam} {lo op : String}
    {rl : Bool} {now : Nat}
    (h : statusBlockedToRunning n param lo op rl now = some n')
    (hinv : lockCountersInv n) : lockCountersInv n' := by
  obtain ⟨hent, href, hrun, hblk⟩ := hinv
  unfold statusBlockedToRunning at h
  cases he : alookup n.debugLockMap param with
  | none => rw [he] at h; simp at h
  | some e =>
    rw [he] at h
    simp only [Option.some.injEq] at h
    subst h
    refine ⟨?_, ?_, ?_, ?_⟩
    · intro pe hpe
      rcases mem_aupdate hpe with hpe' | hpe'
      · subst hpe'
        have hh := hent _ (alookup_mem he)
        simp at hh ⊢
        omega
      · exact hent _ hpe'
    · simp only [sumBy_aupdate _ he]
      omega
    · simp only [sumBy_aupdate _ he]
      omega
    · simp only [sumBy_aupdate _ he]
      omega

theorem released_deltas {n : nsLockMap} {param : nsParam} {op : String}
    {e : debugLockInfoPerVolumePath} {info : debugLockInfo}
    (hp : alookup n.debugLockMap param = some e)
    (hop : alookup e.lockInfo op = some info) :
    (deleteLockInfoEntryForOps n param op).1.runningLockCounter = n.runningLockCounter - 1 ∧
    (deleteLockInfoEntryForOps n param op).1.globalLockCounter = n.globalLockCounter - 1 ∧
    (deleteLockInfoEntryForOps n param op).1.blockedCounter = n.blockedCounter ∧
    paramRunning (deleteLockInfoEntryForOps n param op).1 param = paramRunning n param - 1 ∧
    paramRef (deleteLockInfoEntryForOps n param op).1 param = paramRef n param - 1 ∧
    paramBlocked (deleteLockInfoEntryForOps n param op).1 param = paramBlocked n param := by
  simp only [deleteLockInfoEntryForOps, hp, hop]
  simp [paramRef, paramBlocked, paramRunning, hp, alookup_aupdate_self hp]

theorem released_inv {n : nsLockMap} {param : nsParam} {op : String}
    (hinv : lockCountersInv n) :
    lockCountersInv (deleteLockInfoEntryForOps n param op).1 := by
  obtain ⟨hent, href, hrun, hblk⟩ := hinv
  cases hp : alookup n.debugLockMap param with
  | none =>
    simp only [deleteLockInfoEntryForOps, hp]
    exact ⟨hent, href, hrun, hblk⟩
  | some e =>
    cases hop : alookup e.lockInfo op with
    | none =>
      simp only [deleteLockInfoEntryForOps, hp, hop]
      exact ⟨hent, href, hrun, hblk⟩
    | some info =>
      simp only [deleteLockInfoEntryForOps, hp, hop]
      refine ⟨?_, ?_, ?_, ?_⟩
      · intro pe hpe
        rcases mem_aupdate hpe with hpe' | hpe'
        · subst hpe'
          have hh := hent _ (alookup_mem hp)
          simp at hh ⊢
          omega
        · exact hent _ hpe'
      · simp only [sumBy_aupdate _ hp]
        omega
      · simp only [sumBy_aupdate _ hp]
        omega
      · simp only [sumBy_aupdate _ hp]
        omega

/-- C7: the reserve transition (statusNoneToBlocked) increments
globalLockCount, blockedCount and the per-pair ref and blocked counters; the
acquired transition (statusBlockedToRunning) decrements blockedCount and
blocked and increments runningLockCount and running; the released transition
(the successful branch of deleteLockInfoEntryForOps) decrements
runningLockCount, running, globalLockCount and ref; and each of the three
transitions preserves the invariants ref = running + blocked per
(volume,path) and the three global aggregation equations. -/
theorem lockInstrument_counterDeltas_preserve_invariants
    (n : nsLockMap) (param : nsParam) (lo op : String) (rl : Bool) (now : Nat) :
    (∀ n', statusNoneToBlocked n param lo op rl now = some n' →
      (n'.globalLockCounter = n.globalLockCounter + 1 ∧
       n'.blockedCounter = n.blockedCounter + 1 ∧
       n'.runningLockCounter = n.runningLockCounter ∧
       paramRef n' param = paramRef n param + 1 ∧
       paramBlocked n' param = paramBlocked n param + 1 ∧
       paramRunning n' param = paramRunning n param) ∧
      (lockCountersInv n → lockCountersInv n')) ∧
    (∀ n', statusBlockedToRunning n param lo op rl now = some n' →
      (n'.blockedCounter = n.blockedCounter - 1 ∧
       n'.runningLockCounter = n.runningLockCounter + 1 ∧
       n'.globalLockCounter = n.globalLockCounter ∧
       paramBlocked n' param = paramBlocked n param - 1 ∧
       paramRunning n' param = paramRunning n param + 1 ∧
       paramRef n' param = paramRef n param) ∧
      (lockCountersInv n → lockCountersInv n')) ∧
    (∀ e info, alookup n.debugLockMap param = some e →
       alookup e.lockInfo op = some info →
      (deleteLockInfoEntryForOps n param op).1.runningLockCounter = n.runningLockCounter - 1 ∧
      (deleteLockInfoEntryForOps n param op).1.globalLockCounter = n.globalLockCounter - 1 ∧
      (deleteLockInfoEntryForOps n param op).1.blockedCounter = n.blockedCounter ∧
      paramRunning (deleteLockInfoEntryForOps n param op).1 param = paramRunning n param - 1 ∧
      paramRef (deleteLockInfoEntryForOps n param op).1 param = paramRef n param - 1 ∧
      paramBlocked (deleteLockInfoEntryForOps n param op).1 param = paramBlocked n param) ∧
    (lockCountersInv n → lockCountersInv (deleteLockInfoEntryForOps n param op).1) :=
  ⟨fun _ h => ⟨reserve_deltas h, reserve_inv h⟩,
   fun _ h => ⟨acquired_deltas h, acquired_inv h⟩,
   fun _ _ hp hop => released_deltas hp hop,
   fun hi => released_inv hi⟩

/-- Witness for C7: the transitions instantiated on a concrete one-entry
state. -/
theorem lockInstrument_counterDeltas_witness :
    lockDemoReserved.globalLockCounter = lockDemoMap.globalLockCounter + 1 ∧
    lockCountersInv lockDemoReserved ∧
    lockCountersInv (deleteLockInfoEntryForOps lockDemoMap lockDemoParam "op1").1 := by
  have h1 := (lockInstrument_counterDeltas_preserve_invariants
      lockDemoMap lockDemoParam "orig" "op2" true 5).1 lockDemoReserved (by rfl)
  have h2 := (lockInstrument_counterDeltas_preserve_invariants
      lockDemoMap lockDemoParam "orig" "op1" true 5).2.2.2
  have hinv : lockCountersInv lockDemoMap := by
    unfold lockCountersInv
    decide
  exact ⟨h1.1.1, h1.2 hinv, h2 hinv⟩

/-- C9: an instrumented release naming an operation ID with no recorded entry
for the (volume,path) pair logs the error flag (the message Operation ID does
not exist), returns nothing to the caller, and leaves every counter and every
lock-state entry unchanged. -/
theorem unlockUnknownOpID_logs_and_is_noop
    (n : nsLockMap) (param : nsParam) (opID : String) (e : debugLockInfoPerVolumePath)
    (hp : alookup n.debugLockMap param = some e)
    (hop : alookup e.lockInfo opID = none) :
    deleteLockInfoEntryForOps n param opID = (n, true) := by
  simp only [deleteLockInfoEntryForOps, hp, hop]

/-- Witness for C9 at a concrete state with one recorded operation. -/
theorem unlockUnknownOpID_witness :
    deleteLockInfoEntryForOps lockDemoMap lockDemoParam "ghost" = (lockDemoMap, true) :=
  unlockUnknownOpID_logs_and_is_noop lockDemoMap lockDemoParam "ghost" lockDemoEntry
    (by rfl) (by rfl)

/-- C10: statusNoneToBlocked and statusBlockedToRunning never create the
(volume,path) entry: when it is absent both functions hit the nil-pointer map
write and panic (embedded as none, with no state produced), and after a
successful reserve for a param the acquired transition for that param
succeeds. -/
theorem statusTransitions_require_reserved_entry
    (n : nsLockMap) (param : nsParam) (lo op : String) (rl : Bool) (now : Nat) :
    (alookup n.debugLockMap param = none →
      statusNoneToBlocked n param lo op rl now = none ∧
      statusBlockedToRunning n param lo op rl now = none) ∧
    (∀ n', statusNoneToBlocked n param lo op rl now = some n' →
      ∀ lo2 op2 rl2 now2,
        (statusBlockedToRunning n' param lo2 op2 rl2 now2).isSome = true) := by
  constructor
  · intro habs
    constructor <;> simp [statusNoneToBlocked, statusBlockedToRunning, habs]
  · intro n' h lo2 op2 rl2 now2
    unfold statusNoneToBlocked at h
    cases he : alookup n.debugLockMap param with
    | none => rw [he] at h; simp at h
    | some e =>
      rw [he] at h
      simp only [Option.some.injEq] at h
      subst h
      simp [statusBlockedToRunning, alookup_aupdate_self he]

/-- Witness for C10: panic on the empty map, success after a reserve. -/
theorem statusTransitions_require_reserved_entry_witness :
    statusNoneToBlocked lockEmptyMap lockDemoParam "o" "op9" true 0 = none ∧
    (statusBlockedToRunning lockDemoReserved lockDemoParam "o" "op2" true 6).isSome = true :=
  ⟨((statusTransitions_require_reserved_entry lockEmptyMap lockDemoParam "o" "op9" true 0).1
      rfl).1,
   (statusTransitions_require_reserved_entry lockDemoMap lockDemoParam "orig" "op2" true 5).2
     lockDemoReserved rfl "o" "op2" true 6⟩

theorem keyRefList_nil_alookup {m : List (nsParam × nsLockEntry)} {param : nsParam}
    (h : keyRefList m param = []) : alookup m param = none := by
  induction m with
  | nil => rfl
  | cons pe rest ih =>
    obtain ⟨q, e⟩ := pe
    by_cases hq : q = param
    · subst hq
      simp [keyRefList] at h
    · simp [keyRefList, hq] at h
      simp [alookup, hq]
      exact ih h

theorem keyRefList_cons_alookup {m : List (nsParam × nsLockEntry)} {param : nsParam}
    {k : Int} {ks : List Int} (h : keyRefList m param = k :: ks) :
    ∃ e, alookup m param = some e ∧ e.ref = k := by
  induction m with
  | nil => simp [keyRefList] at h
  | cons pe rest ih =>
    obtain ⟨q, e⟩ := pe
    by_cases hq : q = param
    · subst hq
      simp [keyRefList] at h
      exact ⟨e, by simp [alookup], h.1⟩
    · simp [keyRefList, hq] at h
      obtain ⟨e', he', hr⟩ := ih h
      exact ⟨e', by simp [alookup, hq]; exact he', hr⟩

theorem keyRefList_append_self {m : List (nsParam × nsLockEntry)} {param : nsParam}
    (e : nsLockEntry) :
    keyRefList (m ++ [(param, e)]) param = keyRefList m param ++ [e.ref] := by
  induction m with
  | nil => simp [keyRefList]
  | cons pe rest ih =>
    obtain ⟨q, w⟩ := pe
    by_cases hq : q = param
    · subst hq
      simp [keyRefList, ih]
    · simp [keyRefList, hq, ih]

theorem keyRefList_aupdate {m : List (nsParam × nsLockEntry)} {param : nsParam}
    {k : Int} {ks : List Int} (h : keyRefList m param = k :: ks) (e : nsLockEntry) :
    keyRefList (aupdate m param e) param = e.ref :: ks := by
  induction m with
  | nil => simp [keyRefList] at h
  | cons pe rest ih =>
    obtain ⟨q, w⟩ := pe
    by_cases hq : q = param
    · subst hq
      simp [keyRefList] at h
      simp [aupdate, keyRefList, h.2]
    · simp [keyRefList, hq] at h
      simp [aupdate, hq, keyRefList]
      exact ih h

theorem keyRefList_aerase {m : List (nsParam × nsLockEntry)} {param : nsParam}
    {k : Int} {ks : List Int} (h : keyRefList m param = k :: ks) :
    keyRefList (aerase m param) param = ks := by
  induction m with
  | nil => simp [keyRefList] at h
  | cons pe rest ih =>
    obtain ⟨q, w⟩ := pe
    by_cases hq : q = param
    · subst hq
      simp [keyRefList] at h
      simp [aerase, keyRefList, h.2]
    · simp [keyRefList, hq] at h
      simp [aerase, hq, keyRefList]
      exact ih h

theorem nsLockAcquire_absent {m : List (nsParam × nsLockEntry)} {param : nsParam}
    (h : keyRefList m param = []) :
    keyRefList (nsLockAcquire m param) param = [1] := by
  unfold nsLockAcquire
  rw [keyRefList_nil_alookup h, keyRefList_append_self, h]
  rfl

theorem nsLockAcquire_present {m : List (nsParam × nsLockEntry)} {param : nsParam}
    {k : Int} (h : keyRefList m param = [k]) :
    keyRefList (nsLockAcquire m param) param = [k + 1] := by
  obtain ⟨e, he, hr⟩ := keyRefList_cons_alookup h
  unfold nsLockAcquire
  rw [he, keyRefList_aupdate h]
  simp [hr]

theorem nsLockRelease_present {m : List (nsParam × nsLockEntry)} {param : nsParam}
    {k : Int} (h : keyRefList m param = [k]) :
    keyRefList (nsLockRelease m param) param = if k - 1 = 0 then [] else [k - 1] := by
  obtain ⟨e, he, hr⟩ := keyRefList_cons_alookup h
  simp only [nsLockRelease, he]
  rw [hr]
  by_cases hz : k - 1 = 0
  · simp [hz, keyRefList_aerase h]
  · simp [hz, keyRefList_aupdate h]

theorem nsLockApply_balanced {param : nsParam} :
    ∀ (ops : List Bool) (m : List (nsParam × nsLockEntry)) (k : Int), 0 ≤ k →
    keyRefList m param = (if k = 0 then [] else [k]) →
    balancedFrom k ops = true →
    keyRefList (nsLockApply m param ops) param = [] := by
  intro ops
  induction ops with
  | nil =>
    intro m k _ hstate hbal
    simp [balancedFrom] at hbal
    subst hbal
    simpa [nsLockApply] using hstate
  | cons op rest ih =>
    intro m k hk hstate hbal
    cases op with
    | true =>
      simp [balancedFrom] at hbal
      have hstep : keyRefList (nsLockAcquire m param) param =
          (if k + 1 = 0 then [] else [k + 1]) := by
        by_cases hz : k = 0
        · subst hz
          simp at hstate
          simp [nsLockAcquire_absent hstate]
        · rw [if_neg hz] at hstate
          rw [nsLockAcquire_present hstate]
          have : ¬(k + 1 = 0) := by omega
          simp [this]
      simpa [nsLockApply] using ih (nsLockAcquire m param) (k + 1) (by omega) hstep hbal
    | false =>
      simp [balancedFrom] at hbal
      obtain ⟨hpos, hbal'⟩ := hbal
      have hz : ¬(k = 0) := by omega
      rw [if_neg hz] at hstate
      have hstep : keyRefList (nsLockRelease m param) param =
          (if k - 1 = 0 then [] else [k - 1]) := nsLockRelease_present hstate
      simpa [nsLockApply] using ih (nsLockRelease m param) (k - 1) (by omega) hstep hbal'

theorem mem_aerase {α β : Type} [DecidableEq α] {l : List (α × β)} {a : α} {pe : α × β}
    (h : pe ∈ aerase l a) : pe ∈ l := by
  induction l with
  | nil => simp [aerase] at h
  | cons qe rest ih =>
    obtain ⟨k, w⟩ := qe
    by_cases hk : k = a
    · subst hk
      simp [aerase] at h
      exact List.mem_cons_of_mem _ h
    · simp [aerase, hk] at h
      rcases h with h | h
      · exact h ▸ List.mem_cons_self _ _
      · exact List.mem_cons_of_mem _ (ih h)

theorem nsLockAcquire_pos {m : List (nsParam × nsLockEntry)} {param : nsParam}
    (hpos : ∀ pe ∈ m, 0 < pe.2.ref) :
    ∀ pe ∈ nsLockAcquire m param, 0 < pe.2.ref := by
  intro pe hpe
  cases he : alookup m param with
  | none =>
    simp only [nsLockAcquire, he] at hpe
    rcases List.mem_append.mp hpe with h | h
    · exact hpos _ h
    · simp at h
      subst h
      simp
  | some e =>
    simp only [nsLockAcquire, he] at hpe
    rcases mem_aupdate hpe with h | h
    · subst h
      have hh := hpos _ (alookup_mem he)
      simp at hh ⊢
      omega
    · exact hpos _ h

theorem nsLockRelease_pos {m : List (nsParam × nsLockEntry)} {param : nsParam}
    (hpos : ∀ pe ∈ m, 0 < pe.2.ref) :
    ∀ pe ∈ nsLockRelease m param, 0 < pe.2.ref := by
  intro pe hpe
  cases he : alookup m param with
  | none =>
    simp only [nsLockRelease, he] at hpe
    exact hpos _ hpe
  | some e =>
    simp only [nsLockRelease, he] at hpe
    by_cases hz : e.ref - 1 = 0
    · rw [if_pos hz] at hpe
      exact hpos _ (mem_aerase hpe)
    · rw [if_neg hz] at hpe
      rcases mem_aupdate hpe with h | h
      · subst h
        have hh := hpos _ (alookup_mem he)
        simp at hh ⊢
        omega
      · exact hpos _ h

/-- C8: every entry of the NamespaceLockMap carries ref greater than 0 (both
operations preserve this, so presence in the map is equivalent to a positive
ref); after any balanced acquire/release sequence on a key starting from no
entry the map again has no entry for that key; a single Lock gives ref 1 and
its Unlock removes the entry; four RLock calls followed by two RUnlock calls
leave ref 2 with the entry still present. -/
theorem nsLockMap_ref_lifecycle (m : List (nsParam × nsLockEntry)) (param : nsParam)
    (ops : List Bool) :
    ((∀ pe ∈ m, 0 < pe.2.ref) →
      (∀ pe ∈ nsLockAcquire m param, 0 < pe.2.ref) ∧
      (∀ pe ∈ nsLockRelease m param, 0 < pe.2.ref)) ∧
    (keyRefList m param = [] → balancedFrom 0 ops = true →
      keyRefList (nsLockApply m param ops) param = []) ∧
    (keyRefList m param = [] →
      keyRefList (nsLockAcquire m param) param = [1] ∧
      keyRefList (nsLockRelease (nsLockAcquire m param) param) param = []) ∧
    (keyRefList m param = [] →
      keyRefList (nsLockApply m param [true, true, true, true, false, false]) param = [2]) := by
  refine ⟨fun hpos => ⟨nsLockAcquire_pos hpos, nsLockRelease_pos hpos⟩, ?_, ?_, ?_⟩
  · intro habs hbal
    exact nsLockApply_balanced ops m 0 le_rfl (by simpa using habs) hbal
  · intro habs
    have h1 := nsLockAcquire_absent habs
    have h2 := nsLockRelease_present h1
    norm_num at h2
    exact ⟨h1, h2⟩
  · intro habs
    have h1 := nsLockAcquire_absent habs
    have h2 := nsLockAcquire_present h1
    norm_num at h2
    have h3 := nsLockAcquire_present h2
    norm_num at h3
    have h4 := nsLockAcquire_present h3
    norm_num at h4
    have h5 := nsLockRelease_present h4
    norm_num at h5
    have h6 := nsLockRelease_present h5
    norm_num at h6
    simpa [nsLockApply] using h6

/-- Witness for C8: lifecycle at the empty map for the key (a, b). -/
theorem nsLockMap_ref_lifecycle_witness :
    keyRefList (nsLockApply [] lockDemoParam [true, false, true, true, false, false])
        lockDemoParam = [] ∧
    keyRefList (nsLockAcquire [] lockDemoParam) lockDemoParam = [1] ∧
    keyRefList (nsLockApply [] lockDemoParam [true, true, true, true, false, false])
        lockDemoParam = [2] :=
  ⟨(nsLockMap_ref_lifecycle [] lockDemoParam [true, false, true, true, false, false]).2.1
      rfl (by decide),
   ((nsLockMap_ref_lifecycle [] lockDemoParam []).2.2.1 rfl).1,
   (nsLockMap_ref_lifecycle [] lockDemoParam []).2.2.2 rfl⟩

theorem byteHex_length (b : Nat) : (byteHex b).length = 2 := rfl

theorem wordHexLE_length (w : Nat) : (wordHexLE w).length = 8 := by
  simp [wordHexLE, String.length_append, byteHex_length]

theorem md5Hex_length (msg : List Nat) : (md5Hex msg).length = 32 := by
  rcases hd : md5Digest msg with ⟨a, b, c, d⟩
  simp [md5Hex, hd, String.length_append, wordHexLE_length]

theorem putObjectPart_invalidUploadID {st : multipartState}
    {bucket object uploadID : String} {partNumber size : Nat}
    {readerData : List Nat} {expectedMD5 : String}
    (hb : IsValidBucketName bucket = true) (ho : object ≠ "")
    (hex : st.buckets.contains bucket = true)
    (hup : st.activeUploads.contains (bucket, object, uploadID) = false) :
    putObjectPart st bucket object uploadID partNumber size readerData expectedMD5 =
      (st, Except.error ("Invalid upload id " ++ uploadID)) := by
  have ho' : (object == "") = false := beq_eq_false_iff_ne.mpr ho
  have hexm : bucket ∈ st.buckets := by simpa using hex
  have hupm : (bucket, object, uploadID) ∉ st.activeUploads := by simpa using hup
  simp [putObjectPart, hb, ho', hexm, hupm]

/-- C4: when the reader delivers exactly size bytes and every name check
passes, PutObjectPart returns the 32-character lowercase hex MD5 of the
bytes read and stores it; when expectedMD5 is non-empty and differs from the
computed digest the call fails with the literal BadDigest message and the
state, in particular the stored parts, is unchanged (the part is
discarded). -/
theorem putObjectPart_md5_contract (st : multipartState)
    (bucket object uploadID : String) (partNumber size : Nat)
    (readerData : List Nat) (expectedMD5 : String)
    (hb : IsValidBucketName bucket = true)
    (ho : object ≠ "")
    (hex : st.buckets.contains bucket = true)
    (hup : st.activeUploads.contains (bucket, object, uploadID) = true)
    (hsz : size = readerData.length) :
    ((expectedMD5 = "" ∨ expectedMD5 = md5Hex readerData) →
      putObjectPart st bucket object uploadID partNumber size readerData expectedMD5 =
        ({ st with
           parts := ainsert st.parts (bucket, object, uploadID, partNumber)
             (md5Hex readerData) },
         Except.ok (md5Hex readerData)) ∧
      (md5Hex readerData).length = 32) ∧
    (expectedMD5 ≠ "" → expectedMD5 ≠ md5Hex readerData →
      putObjectPart st bucket object uploadID partNumber size readerData expectedMD5 =
        (st, Except.error ("Bad digest: Expected " ++ expectedMD5 ++
          " is not valid with what we calculated " ++ md5Hex readerData))) := by
  have ho' : (object == "") = false := beq_eq_false_iff_ne.mpr ho
  have hexm : bucket ∈ st.buckets := by simpa using hex
  have hupm : (bucket, object, uploadID) ∈ st.activeUploads := by simpa using hup
  subst hsz
  constructor
  · intro hok
    refine ⟨?_, md5Hex_length readerData⟩
    rcases hok with h | h <;>
      simp [putObjectPart, hb, ho', hexm, hupm, h]
  · intro hne hnc
    simp [putObjectPart, hb, ho', hexm, hupm, hne, hnc]

/-- Witness for C4: the BadDigest case over zero bytes and the success case
over the four bytes abcd, with the digests the test table pins. -/
theorem putObjectPart_md5_contract_witness :
    putObjectPart mpDemo "minio-bucket" "minio-object" "uid-1" 1 0 [] "a35" =
      (mpDemo, Except.error ("Bad digest: Expected a35 is not valid with what we calculated " ++
        md5Hex [])) ∧
    md5Hex [] = "d41d8cd98f00b204e9800998ecf8427e" ∧
    putObjectPart mpDemo "minio-bucket" "minio-object" "uid-1" 1 4 (strBytes "abcd") "" =
      ({ mpDemo with
         parts := ainsert mpDemo.parts ("minio-bucket", "minio-object", "uid-1", 1)
           (md5Hex (strBytes "abcd")) },
       Except.ok (md5Hex (strBytes "abcd"))) ∧
    md5Hex (strBytes "abcd") = "e2fc714c4727ee9395f324cd2e7f331f" :=
  ⟨(putObjectPart_md5_contract mpDemo "minio-bucket" "minio-object" "uid-1" 1 0 [] "a35"
      (by decide) (by decide) (by decide) (by decide) (by decide)).2
      (by decide) (by decide),
   by decide,
   ((putObjectPart_md5_contract mpDemo "minio-bucket" "minio-object" "uid-1" 1 4
      (strBytes "abcd") "" (by decide) (by decide) (by decide) (by decide) (by decide)).1
      (Or.inl rfl)).1,
   by decide⟩

/-- C5: PutObjectPart reads exactly size bytes: a reader with fewer bytes
fails with the message EOF, a reader with more bytes fails with the literal
IncompleteBody message naming the declared size; the state is unchanged in
both cases. -/
theorem putObjectPart_size_contract (st : multipartState)
    (bucket object uploadID : String) (partNumber size : Nat)
    (readerData : List Nat) (expectedMD5 : String)
    (hb : IsValidBucketName bucket = true)
    (ho : object ≠ "")
    (hex : st.buckets.contains bucket = true)
    (hup : st.activeUploads.contains (bucket, object, uploadID) = true) :
    (readerData.length < size →
      putObjectPart st bucket object uploadID partNumber size readerData expectedMD5 =
        (st, Except.error "EOF")) ∧
    (size < readerData.length →
      putObjectPart st bucket object uploadID partNumber size readerData expectedMD5 =
        (st, Except.error ("Contains more data than specified size of " ++
          natDecimal size ++ " bytes."))) := by
  have ho' : (object == "") = false := beq_eq_false_iff_ne.mpr ho
  have hexm : bucket ∈ st.buckets := by simpa using hex
  have hupm : (bucket, object, uploadID) ∈ st.activeUploads := by simpa using hup
  constructor
  · intro hlt
    simp [putObjectPart, hb, ho', hexm, hupm, hlt]
  · intro hgt
    have hnlt : ¬(readerData.length < size) := by omega
    simp [putObjectPart, hb, ho', hexm, hupm, hnlt, hgt]

/-- Witness for C5: declared size 5 over the four bytes abcd gives EOF,
declared size 3 gives the IncompleteBody message for 3 bytes. -/
theorem putObjectPart_size_contract_witness :
    putObjectPart mpDemo "minio-bucket" "minio-object" "uid-1" 1 5 (strBytes "abcd") "a35" =
      (mpDemo, Except.error "EOF") ∧
    putObjectPart mpDemo "minio-bucket" "minio-object" "uid-1" 1 3 (strBytes "abcd") "a35" =
      (mpDemo, Except.error ("Contains more data than specified size of " ++
        natDecimal 3 ++ " bytes.")) ∧
    ("Contains more data than specified size of " ++ natDecimal 3 ++ " bytes.") =
      "Contains more data than specified size of 3 bytes." :=
  ⟨(putObjectPart_size_contract mpDemo "minio-bucket" "minio-object" "uid-1" 1 5
      (strBytes "abcd") "a35" (by decide) (by decide) (by decide) (by decide)).1 (by decide),
   (putObjectPart_size_contract mpDemo "minio-bucket" "minio-object" "uid-1" 1 3
      (strBytes "abcd") "a35" (by decide) (by decide) (by decide) (by decide)).2 (by decide),
   by decide⟩

/-- C6: PutObjectPart validates in order: invalid bucket name, then empty
object name, then missing bucket, then unknown (bucket, object, uploadID)
triple, each with its literal message; and the uploadID check is strict, so
an uploadID minted for one (bucket, object) pair is invalid against any
other pair. -/
theorem putObjectPart_validation_order (st : multipartState)
    (bucket object uploadID : String) (partNumber size : Nat)
    (readerData : List Nat) (expectedMD5 : String) :
    (IsValidBucketName bucket = false →
      putObjectPart st bucket object uploadID partNumber size readerData expectedMD5 =
        (st, Except.error ("Bucket name invalid: " ++ bucket))) ∧
    (IsValidBucketName bucket = true → object = "" →
      putObjectPart st bucket object uploadID partNumber size readerData expectedMD5 =
        (st, Except.error ("Object name invalid: " ++ bucket ++ "#" ++ object))) ∧
    (IsValidBucketName bucket = true → object ≠ "" →
      st.buckets.contains bucket = false →
      putObjectPart st bucket object uploadID partNumber size readerData expectedMD5 =
        (st, Except.error ("Bucket not found: " ++ bucket))) ∧
    (IsValidBucketName bucket = true → object ≠ "" →
      st.buckets.contains bucket = true →
      st.activeUploads.contains (bucket, object, uploadID) = false →
      putObjectPart st bucket object uploadID partNumber size readerData expectedMD5 =
        (st, Except.error ("Invalid upload id " ++ uploadID))) ∧
    (∀ b2 o2, st.activeUploads = [(bucket, object, uploadID)] → (b2, o2) ≠ (bucket, object) →
      IsValidBucketName b2 = true → o2 ≠ "" → st.buckets.contains b2 = true →
      putObjectPart st b2 o2 uploadID partNumber size readerData expectedMD5 =
        (st, Except.error ("Invalid upload id " ++ uploadID))) := by
  refine ⟨?_, ?_, ?_, ?_, ?_⟩
  · intro hb
    simp [putObjectPart, hb]
  · intro hb ho
    subst ho
    simp [putObjectPart, hb]
  · intro hb ho hnex
    have ho' : (object == "") = false := beq_eq_false_iff_ne.mpr ho
    have hnexm : bucket ∉ st.buckets := by simpa using hnex
    simp [putObjectPart, hb, ho', hnexm]
  · intro hb ho hex hup
    exact putObjectPart_invalidUploadID hb ho hex hup
  · intro b2 o2 hsingle hpair hb2 ho2 hex2
    have hup : st.activeUploads.contains (b2, o2, uploadID) = false := by
      rw [hsingle]
      simp only [List.contains_cons, List.contains_nil, Bool.or_false]
      rw [beq_eq_false_iff_ne]
      intro hcontra
      apply hpair
      rw [Prod.ext_iff] at hcontra
      obtain ⟨h1, h2⟩ := hcontra
      rw [Prod.ext_iff] at h2
      exact Prod.ext h1 h2.1
    exact putObjectPart_invalidUploadID hb2 ho2 hex2 hup

/-- Witness for C6: the five validation outcomes on concrete inputs pinned
by testObjectAPIPutObjectPart. -/
theorem putObjectPart_validation_order_witness :
    putObjectPart mpDemo ".test" "obj" "" 1 0 [] "" =
      (mpDemo, Except.error ("Bucket name invalid: " ++ ".test")) ∧
    putObjectPart mpDemo "minio-bucket" "" "" 1 0 [] "" =
      (mpDemo, Except.error ("Object name invalid: " ++ "minio-bucket" ++ "#" ++ "")) ∧
    putObjectPart mpDemo "abc" "def" "" 1 0 [] "" =
      (mpDemo, Except.error ("Bucket not found: " ++ "abc")) ∧
    putObjectPart mpDemo "minio-bucket" "minio-object" "xyz" 1 0 [] "" =
      (mpDemo, Except.error ("Invalid upload id " ++ "xyz")) ∧
    putObjectPart mpDemo "unused-bucket" "minio-object" "uid-1" 1 0 [] "" =
      (mpDemo, Except.error ("Invalid upload id " ++ "uid-1")) :=
  ⟨(putObjectPart_validation_order mpDemo ".test" "obj" "" 1 0 [] "").1 (by decide),
   (putObjectPart_validation_order mpDemo "minio-bucket" "" "" 1 0 [] "").2.1
     (by decide) rfl,
   (putObjectPart_validation_order mpDemo "abc" "def" "" 1 0 [] "").2.2.1
     (by decide) (by decide) (by decide),
   (putObjectPart_validation_order mpDemo "minio-bucket" "minio-object" "xyz" 1 0 [] "").2.2.2.1
     (by decide) (by decide) (by decide) (by decide),
   (putObjectPart_validation_order mpDemo "minio-bucket" "minio-object" "uid-1" 1 0 [] "").2.2.2.2
     "unused-bucket" "minio-object" rfl (by decide) (by decide) (by decide) (by decide)⟩

theorem emitLoop_eq_emitAll (pre delim : String) :
    ∀ (l : List uploadMetadata) (maxU : Nat) (seen : List String),
    emitLoop pre delim maxU l seen =
      ((emitAll pre delim l seen).take maxU,
       decide (maxU < (emitAll pre delim l seen).length)) := by
  intro l
  induction l with
  | nil => intro maxU seen; simp [emitLoop, emitAll]
  | cons e rest ih =>
    intro maxU seen
    cases hem : emissionOf pre delim e seen with
    | none => simp [emitLoop, emitAll, hem, ih]
    | some em =>
      cases maxU with
      | zero => simp [emitLoop, emitAll, hem]
      | succ m => simp [emitLoop, emitAll, hem, ih]

theorem listMultipartUploads_ok {uploads : List uploadMetadata} {bucketExists : Bool}
    {bucket pre keyMarker uploadIDMarker delim : String} {maxUploads : Int}
    {r : ListMultipartsInfo}
    (h : listMultipartUploads uploads bucketExists bucket pre keyMarker uploadIDMarker
        delim maxUploads = Except.ok r) :
    r = listMultipartsResult uploads pre keyMarker uploadIDMarker delim maxUploads := by
  unfold listMultipartUploads at h
  split_ifs at h
  simp_all

theorem listMultipartsResult_isTruncated (uploads : List uploadMetadata)
    (pre keyMarker uploadIDMarker delim : String) (maxUploads : Int) :
    (listMultipartsResult uploads pre keyMarker uploadIDMarker delim maxUploads).IsTruncated =
      decide (maxUploads.toNat <
        (matchingEmissions uploads pre keyMarker uploadIDMarker delim).length) := by
  simp [listMultipartsResult, matchingEmissions, emitLoop_eq_emitAll]

theorem listMultipartsResult_uploads (uploads : List uploadMetadata)
    (pre keyMarker uploadIDMarker delim : String) (maxUploads : Int) :
    (listMultipartsResult uploads pre keyMarker uploadIDMarker delim maxUploads).Uploads =
      emissionsUploads ((matchingEmissions uploads pre keyMarker uploadIDMarker delim).take
        maxUploads.toNat) := by
  simp [listMultipartsResult, matchingEmissions, emitLoop_eq_emitAll]

theorem listMultipartsResult_nextMarkers (uploads : List uploadMetadata)
    (pre keyMarker uploadIDMarker delim : String) (maxUploads : Int) :
    (listMultipartsResult uploads pre keyMarker uploadIDMarker delim maxUploads).NextKeyMarker =
      (if (listMultipartsResult uploads pre keyMarker uploadIDMarker delim
            maxUploads).IsTruncated then
        (match ((matchingEmissions uploads pre keyMarker uploadIDMarker delim).take
            maxUploads.toNat).getLast? with
         | some em => emissionKey em
         | none => "")
      else "") ∧
    (listMultipartsResult uploads pre keyMarker uploadIDMarker delim
        maxUploads).NextUploadIDMarker =
      (if (listMultipartsResult uploads pre keyMarker uploadIDMarker delim
            maxUploads).IsTruncated then
        (match ((matchingEmissions uploads pre keyMarker uploadIDMarker delim).take
            maxUploads.toNat).getLast? with
         | some em => emissionUploadID em
         | none => "")
      else "") := by
  constructor <;> simp [listMultipartsResult, matchingEmissions, emitLoop_eq_emitAll]

theorem listMultipartsResult_echo (uploads : List uploadMetadata)
    (pre keyMarker uploadIDMarker delim : String) (maxUploads : Int) :
    (listMultipartsResult uploads pre keyMarker uploadIDMarker delim maxUploads).KeyMarker =
      keyMarker ∧
    (listMultipartsResult uploads pre keyMarker uploadIDMarker delim
        maxUploads).UploadIDMarker = uploadIDMarker ∧
    (listMultipartsResult uploads pre keyMarker uploadIDMarker delim maxUploads).Prefix = pre ∧
    (listMultipartsResult uploads pre keyMarker uploadIDMarker delim maxUploads).Delimiter =
      delim ∧
    (listMultipartsResult uploads pre keyMarker uploadIDMarker delim maxUploads).MaxUploads =
      Int.ofNat maxUploads.toNat := by
  refine ⟨rfl, rfl, rfl, rfl, rfl⟩

/-- C1: for a successful listing, isTruncated holds iff maxUploads is
nonpositive (treated as 0) and at least one entry matched, or more matching
emissions remain past the cap; the emitted uploads are the first maxUploads
matching emissions; and on truncation the next key and uploadID markers name
the last emitted entry. -/
theorem listMultipartUploads_truncation (uploads : List uploadMetadata)
    (bucketExists : Bool) (bucket pre keyMarker uploadIDMarker delim : String)
    (maxUploads : Int) (r : ListMultipartsInfo)
    (h : listMultipartUploads uploads bucketExists bucket pre keyMarker uploadIDMarker
        delim maxUploads = Except.ok r) :
    (r.IsTruncated = true ↔
      ((maxUploads ≤ 0 ∧
          matchingEmissions uploads pre keyMarker uploadIDMarker delim ≠ []) ∨
       (0 < maxUploads ∧ maxUploads.toNat <
          (matchingEmissions uploads pre keyMarker uploadIDMarker delim).length))) ∧
    r.Uploads = emissionsUploads
      ((matchingEmissions uploads pre keyMarker uploadIDMarker delim).take
        maxUploads.toNat) ∧
    (r.IsTruncated = true →
      ∀ em, ((matchingEmissions uploads pre keyMarker uploadIDMarker delim).take
          maxUploads.toNat).getLast? = some em →
        r.NextKeyMarker = emissionKey em ∧ r.NextUploadIDMarker = emissionUploadID em) := by
  have hr := listMultipartUploads_ok h
  subst hr
  refine ⟨?_, listMultipartsResult_uploads uploads pre keyMarker uploadIDMarker delim
    maxUploads, ?_⟩
  · rw [listMultipartsResult_isTruncated]
    rw [decide_eq_true_eq]
    have hlen : (matchingEmissions uploads pre keyMarker uploadIDMarker delim ≠ []) ↔
        0 < (matchingEmissions uploads pre keyMarker uploadIDMarker delim).length := by
      rw [List.length_pos]
    rw [hlen]
    omega
  · intro htr em hlast
    obtain ⟨hk, hu⟩ := listMultipartsResult_nextMarkers uploads pre keyMarker
      uploadIDMarker delim maxUploads
    rw [hk, hu, if_pos htr, if_pos htr, hlast]
    exact ⟨rfl, rfl⟩

theorem emitAll_no_delim (pre : String) :
    ∀ (l : List uploadMetadata) (seen : List String),
      emitAll pre "" l seen = l.map listEmission.upload := by
  intro l
  induction l with
  | nil => intro seen; rfl
  | cons e rest ih =>
    intro seen
    simp [emitAll, emissionOf, ih]

theorem emissionsUploads_map_upload : ∀ l : List uploadMetadata,
    emissionsUploads (l.map listEmission.upload) = l := by
  intro l
  induction l with
  | nil => rfl
  | cons e rest ih =>
    simp only [emissionsUploads, List.filterMap_cons, List.map_cons] at ih ⊢
    rw [ih]

theorem not_skipEntry_eq (km um : String) (e : uploadMetadata) :
    (!skipEntry km um e) =
      (!(strLt e.Object km) &&
       !(e.Object == km && (um == "" || strLe e.UploadID um))) := by
  unfold skipEntry
  cases h1 : strLt e.Object km <;> cases h2 : (e.Object == km) <;>
    cases h3 : (um == "") <;> simp [h1, h2, h3]

/-- C2: with no delimiter and a cap at least the number of survivors, the
uploads returned are exactly the snapshot entries that match the prefix and
are not skipped by the markers: entries with object lexicographically below
keyMarker are skipped; entries at keyMarker are skipped entirely when
uploadIDMarker is empty and up to and including that uploadID when it is
set (so of the uploads u1, u2, u3 of one object, listing from marker u1
returns exactly u2 and u3). -/
theorem listMultipartUploads_marker_skip (uploads : List uploadMetadata)
    (bucketExists : Bool) (bucket pre keyMarker uploadIDMarker : String)
    (maxUploads : Int) (r : ListMultipartsInfo)
    (h : listMultipartUploads uploads bucketExists bucket pre keyMarker uploadIDMarker
        "" maxUploads = Except.ok r)
    (hcap : (keptEntries uploads pre keyMarker uploadIDMarker).length ≤ maxUploads.toNat) :
    r.Uploads = (uploads.filter (fun e => strHasPfx pre e.Object)).filter
      (fun e => !(strLt e.Object keyMarker) &&
        !(e.Object == keyMarker && (uploadIDMarker == "" || strLe e.UploadID uploadIDMarker))) := by
  have hr := listMultipartUploads_ok h
  subst hr
  rw [listMultipartsResult_uploads]
  unfold matchingEmissions
  rw [emitAll_no_delim]
  rw [← List.map_take, List.take_of_length_le hcap, emissionsUploads_map_upload]
  unfold keptEntries
  congr 1
  funext e
  exact not_skipEntry_eq keyMarker uploadIDMarker e

/-- C3 (amended): nonpositive maxUploads values, the tolerated -1 included,
are treated as 0: the call still succeeds, returns no upload entries, and
isTruncated holds exactly when something matched; the result echoes prefix,
delimiter, keyMarker and uploadIDMarker, and echoes maxUploads after
normalizing negative values to 0, so for input -1 the returned MaxUploads
is 0. -/
theorem listMultipartUploads_maxUploads_normalization (uploads : List uploadMetadata)
    (bucketExists : Bool) (bucket pre keyMarker uploadIDMarker delim : String)
    (maxUploads : Int) (r : ListMultipartsInfo)
    (h : listMultipartUploads uploads bucketExists bucket pre keyMarker uploadIDMarker
        delim maxUploads = Except.ok r) :
    r.KeyMarker = keyMarker ∧ r.UploadIDMarker = uploadIDMarker ∧
    r.Prefix = pre ∧ r.Delimiter = delim ∧
    (0 ≤ maxUploads → r.MaxUploads = maxUploads) ∧
    (maxUploads ≤ 0 →
      r.MaxUploads = 0 ∧ r.Uploads = [] ∧
      (r.IsTruncated = true ↔
        matchingEmissions uploads pre keyMarker uploadIDMarker delim ≠ [])) := by
  have hr := listMultipartUploads_ok h
  subst hr
  obtain ⟨he1, he2, he3, he4, he5⟩ := listMultipartsResult_echo uploads pre keyMarker
    uploadIDMarker delim maxUploads
  refine ⟨he1, he2, he3, he4, ?_, ?_⟩
  · intro hpos
    rw [he5]
    simpa using Int.toNat_of_nonneg hpos
  · intro hneg
    have hz : maxUploads.toNat = 0 := by omega
    refine ⟨by rw [he5, hz]; rfl, ?_, ?_⟩
    · rw [listMultipartsResult_uploads, hz]
      rfl
    · rw [listMultipartsResult_isTruncated, hz]
      rw [decide_eq_true_eq]
      have hlen : (matchingEmissions uploads pre keyMarker uploadIDMarker delim ≠ []) ↔
          0 < (matchingEmissions uploads pre keyMarker uploadIDMarker delim).length := by
        rw [List.length_pos]
      rw [hlen]

/-- Witness for C1: three uploads for one object with maxUploads 2 give the
first two uploads, truncation, and the next markers naming the second
upload, as TestListMultipartUploads case 30 pins. -/
theorem listMultipartUploads_truncation_witness :
    listDemoTripleRes.IsTruncated = true ∧
    listDemoTripleRes.Uploads =
      [⟨"minio-object", listDemoU1⟩, ⟨"minio-object", listDemoU2⟩] ∧
    listDemoTripleRes.NextKeyMarker = "minio-object" ∧
    listDemoTripleRes.NextUploadIDMarker = listDemoU2 := by
  have h := listMultipartUploads_truncation listDemoTriple true "minio-2-bucket" "" "" ""
    "" 2 listDemoTripleRes (by rfl)
  have htr : listDemoTripleRes.IsTruncated = true :=
    h.1.mpr (Or.inr ⟨by decide, by decide⟩)
  have hm := h.2.2 htr (listEmission.upload ⟨"minio-object", listDemoU2⟩) (by rfl)
  exact ⟨htr, by rw [h.2.1]; rfl, hm.1, hm.2⟩

/-- Witness for C2: of the uploads u1, u2, u3 of one object, listing with
uploadIDMarker u1 (and keyMarker naming that object, as the spec scopes the
uploadID skip to the keyMarker object) returns exactly u2 and u3. -/
theorem listMultipartUploads_marker_skip_witness :
    listDemoSkipRes.Uploads =
      [⟨"minio-object", listDemoU2⟩, ⟨"minio-object", listDemoU3⟩] := by
  have h := listMultipartUploads_marker_skip listDemoTriple true "minio-2-bucket" ""
    "minio-object" listDemoU1 100 listDemoSkipRes (by rfl) (by decide)
  rw [h]
  rfl

/-- C3 counterexample: with input maxUploads -1 the call succeeds but the
returned MaxUploads field is 0, not the echoed -1 the claim asserts; the
expected result listMultipartResults[6] of TestListMultipartUploads case 20
pins MaxUploads to 0 for input -1. -/
theorem listMultipartUploads_echo_neg1_cex :
    (listMultipartUploads listDemoSingle true "minio-bucket" "" "min" "" "" (-1)).map
        (fun r => r.MaxUploads) = Except.ok 0 ∧
    ¬((listMultipartUploads listDemoSingle true "minio-bucket" "" "min" "" "" (-1)).map
        (fun r => r.MaxUploads) = Except.ok (-1)) := by
  have h0 : (listMultipartUploads listDemoSingle true "minio-bucket" "" "min" "" "" (-1)).map
      (fun r => r.MaxUploads) = Except.ok 0 := rfl
  refine ⟨h0, ?_⟩
  rw [h0]
  intro hc
  have hz : (0 : Int) = -1 := Except.ok.inj hc
  omega

/-- Witness for the amended C3: input -1 is tolerated, succeeds with no
uploads, MaxUploads 0, truncation because one entry matched, and the other
inputs echoed. -/
theorem listMultipartUploads_maxUploads_normalization_witness :
    listDemoNeg1Res.MaxUploads = 0 ∧ listDemoNeg1Res.Uploads = [] ∧
    listDemoNeg1Res.IsTruncated = true ∧ listDemoNeg1Res.KeyMarker = "min" := by
  have h := listMultipartUploads_maxUploads_normalization listDemoSingle true
    "minio-bucket" "" "min" "" "" (-1) listDemoNeg1Res (by rfl)
  have hneg := h.2.2.2.2.2 (by decide)
  exact ⟨hneg.1, hneg.2.1, hneg.2.2.mpr (by decide), h.1⟩
